import Mathlib

/-!
Shallow embedding of `wslproxybuild/build.py` (a WSL proxy for Windows build
tools) and proofs about its output-translation pipeline.

Conventions of the embedding:
* Python strings are Lean `String`s; most work happens on their `List Char`
  data.
* `pathlib` path objects are modelled by the strings they print as, together
  with explicit parsing helpers that mirror `pathlib`'s documented lexical
  behaviour (splitting on separators, dropping empty and `.` components).
* `Path.resolve()` is modelled for absolute paths none of whose components
  exist on the filesystem: in that case `posixpath.realpath` performs purely
  lexical processing (each `..` pops the previous component) and no symlink
  can influence the result.  All paths the program resolves start with
  `/mnt/` and are not expected to exist inside WSL at translation time.
* Character classes of the CPython `re` patterns are modelled over ASCII,
  which covers every character the program's patterns can produce or consume
  in build-tool output.
-/

namespace WslProxyBuild

/-- Character is one of the whitespace characters matched by Python's
`str.rstrip()` / regex `\s` (ASCII range). -/
def pySpace (c : Char) : Bool :=
  c = ' ' || c = '\t' || c = '\n' || c = '\r' || c = '\x0b' || c = '\x0c'

/-- Character class `\d` of the diagnostic pattern (ASCII digits). -/
def pyDigit (c : Char) : Bool :=
  '0' ≤ c && c ≤ '9'

/-- Character class `\w` used by the `\b` boundaries of `\berror\b`
(ASCII letters, digits and underscore). -/
def isWordChar (c : Char) : Bool :=
  c.isAlphanum || c = '_'

/-- Windows path separators recognized by `PureWindowsPath` (`\` and the
alternate separator `/`). -/
def isSep (c : Char) : Bool :=
  c = '\\' || c = '/'

/-- Character class `[^:(]` terminating the `full_path` group of the
diagnostic pattern in `process_output`. -/
def notPathEnd (c : Char) : Bool :=
  !(c = ':' || c = '(')

/-- Character class `[^\s\):]` of the full-line Windows-path pattern in
`format_message`. -/
def winPathChar (c : Char) : Bool :=
  !(pySpace c || c = ')' || c = ':')

/-- Python `str.rstrip()` on a line read from the child stream. -/
def pyRstrip (s : String) : String :=
  ⟨((s.data.reverse.dropWhile pySpace)).reverse⟩

/-- Splits a character list at every separator selected by `p`, keeping the
(possibly empty) chunks, as `pathlib` does before discarding empty and `.`
entries.  The result is always nonempty. -/
def splitBy (p : Char → Bool) : List Char → List (List Char)
  | [] => [[]]
  | c :: t =>
      let r := splitBy p t
      if p c then [] :: r
      else (c :: r.headD []) :: r.tail

/-- Joins chunks with a single separator character (inverse of `splitBy` on
well-formed chunk lists). -/
def joinSep (sepc : Char) : List (List Char) → List Char
  | [] => []
  | [x] => x
  | x :: y :: r => x ++ sepc :: joinSep sepc (y :: r)

/-- Keep a parsed chunk: `pathlib` discards empty components and `.`
components while parsing, for Windows and POSIX flavours alike. -/
def keepPart (s : List Char) : Bool :=
  !(s.isEmpty || s = ['.'])

/-- Relative components of a Windows path body (text after the drive), as
produced by `PureWindowsPath` parsing: split on `\` or `/`, drop empty and
`.` entries. -/
def winParts (l : List Char) : List (List Char) :=
  (splitBy isSep l).filter keepPart

/-- Components of a POSIX path string, as produced by `PurePosixPath`
parsing: split on `/`, drop empty and `.` entries. -/
def posixParts (l : List Char) : List (List Char) :=
  (splitBy (fun c => c = '/') l).filter keepPart

/-- Printed form (`str(...)`) of `Path(x)` for a string `x` that begins with
a single `/`: the root followed by the parsed components joined by `/`. -/
def pathStr (l : List Char) : String :=
  ⟨'/' :: joinSep '/' (posixParts l)⟩

/-- Python `str.rstrip(':')` (used on the drive of a `PureWindowsPath`). -/
def rstripColon (l : List Char) : List Char :=
  (l.reverse.dropWhile (fun c => c = ':')).reverse

/-- Drive of a Windows path string per `ntpath.splitdrive`: the first two
characters whenever the second one is a colon (UNC shares never occur in
this program's inputs), paired with the rest of the string. -/
def splitDrive (l : List Char) : List Char × List Char :=
  match l with
  | a :: ':' :: t => ([a, ':'], t)
  | _ => ([], l)

/-- Embedding of `windows_to_wsl` (build.py lines 230-234): lowercase the
drive with its colon stripped, take the components of the remainder
relative to the anchor, and print `Path("/mnt/{drive}/{posix_remainder}")`.
When the remainder has no components, `relative_to` yields the path `.`
whose `as_posix()` is `"."`, exactly as in `pathlib`.  The Python function
raises no exception on any string input: `relative_to` is called with the
path's own anchor, so it always succeeds, and no `InvalidPathError` (or any
other error type) is defined anywhere in the program. -/
def windows_to_wsl (s : String) : String :=
  let (driveL, restL) := splitDrive s.data
  let drive := (rstripColon driveL).map Char.toLower
  let parts := winParts restL
  let posix_remainder := if parts.isEmpty then ['.'] else joinSep '/' parts
  pathStr (('/' :: 'm' :: 'n' :: 't' :: '/' :: drive) ++ '/' :: posix_remainder)

/-- Lexical processing of already-parsed components by `posixpath.realpath`
on an absolute path with no existing components: `..` pops the previous
component (at the root it is absorbed), every other component is appended. -/
def resolveParts (parts : List (List Char)) : List (List Char) :=
  parts.foldl (fun acc p => if p = ['.', '.'] then acc.dropLast else acc ++ [p]) []

/-- Embedding of `Path.resolve()` on an absolute path string none of whose
components exists on the filesystem (the `/mnt/...` outputs of
`windows_to_wsl` at translation time): purely lexical `realpath`. -/
def pyResolve (s : String) : String :=
  ⟨'/' :: joinSep '/' (resolveParts (posixParts s.data))⟩

/-- The composite `windows_to_wsl(PureWindowsPath(p)).resolve()` used at
both call sites (build.py lines 143 and 170), printed as a string. -/
def wslResolved (s : String) : String :=
  pyResolve (windows_to_wsl s)

/-- Embedding of the color-code lookup `C` (build.py lines 271-282).  Keys
outside the table raise `KeyError` in Python; no call site uses such a key,
and the model returns `""` there to stay total. -/
def C (k : String) : String :=
  match k with
  | "endc" => "\x1b[m"
  | "red" => "\x1b[31m"
  | "boldred" => "\x1b[1;31m"
  | "green" => "\x1b[32m"
  | "yellow" => "\x1b[33m"
  | "blue" => "\x1b[34m"
  | "cyan" => "\x1b[36m"
  | _ => ""

/-- Fuelled scanner for Python `str.replace(pat, repl)`: non-overlapping
replacement scanning left to right.  Every step consumes at least one input
character (the program only uses nonempty patterns), so fuel equal to the
input length makes the fuelled and unfuelled behaviours coincide. -/
def replaceAllGo : Nat → List Char → List Char → List Char → List Char
  | 0, _, _, l => l
  | _ + 1, _, _, [] => []
  | fuel + 1, pat, repl, c :: t =>
      if pat.isPrefixOf (c :: t) then
        repl ++ replaceAllGo fuel pat repl (List.drop pat.length (c :: t))
      else
        c :: replaceAllGo fuel pat repl t

/-- Python `str.replace` for a nonempty pattern. -/
def replaceAll (pat repl l : List Char) : List Char :=
  replaceAllGo l.length pat repl l

/-- Match of the literal letters `error` (case-insensitively) at the head of
the list. -/
def errorHead (c1 c2 c3 c4 c5 : Char) : Bool :=
  c1.toLower = 'e' && c2.toLower = 'r' && c3.toLower = 'r' &&
  c4.toLower = 'o' && c5.toLower = 'r'

/-- Word boundary on the left: start of string or previous character not a
word character. -/
def boundaryBefore : Option Char → Bool
  | none => true
  | some p => !isWordChar p

/-- Word boundary on the right: end of string or next character not a word
character. -/
def boundaryAfter : List Char → Bool
  | [] => true
  | r :: _ => !isWordChar r

/-- Scanner for `re.sub(r'\berror\b', C('boldred') + "error" + C('endc'),
msg, flags=re.IGNORECASE)`: non-overlapping left-to-right replacement; the
replacement text is the literal lowercase `error` wrapped in the escapes,
regardless of the original casing. -/
def subErrorGo : Nat → Option Char → List Char → List Char
  | 0, _, l => l
  | _ + 1, _, [] => []
  | fuel + 1, prev, c1 :: t1 =>
      match t1 with
      | c2 :: c3 :: c4 :: c5 :: rest =>
          if boundaryBefore prev && errorHead c1 c2 c3 c4 c5 && boundaryAfter rest then
            (C "boldred").data ++ ('e' :: 'r' :: 'r' :: 'o' :: 'r' :: (C "endc").data)
              ++ subErrorGo fuel (some 'r') rest
          else
            c1 :: subErrorGo fuel (some c1) t1
      | _ => c1 :: subErrorGo fuel (some c1) t1

/-- The `\berror\b` substitution applied to a whole string.  Fuel equal to
the input length suffices: every step consumes at least one character. -/
def subError (l : List Char) : List Char :=
  subErrorGo l.length none l

/-- Fuelled scanner for
`re.compile(r'([A-Z]:\\[^\s\):]+)').sub(replace_with_wsl, msg)`: at each
position, an uppercase letter followed by `:` and `\` with at least one
further path character starts a match whose greedy body extends to the
first excluded character; the match is replaced by
`str(windows_to_wsl(PureWindowsPath(match)).resolve())` and scanning
resumes after it.  Lowercase drive letters never start a match.  Fuel equal
to the input length suffices since every step consumes at least one
character. -/
def subWinPathsGo : Nat → List Char → List Char
  | 0, l => l
  | _ + 1, [] => []
  | fuel + 1, a :: rest =>
      match rest with
      | ':' :: '\\' :: r2 =>
          if 'A' ≤ a && a ≤ 'Z' then
            let body := r2.takeWhile winPathChar
            let after := r2.dropWhile winPathChar
            if body.isEmpty then a :: subWinPathsGo fuel rest
            else (wslResolved ⟨a :: ':' :: '\\' :: body⟩).data ++ subWinPathsGo fuel after
          else a :: subWinPathsGo fuel rest
      | _ => a :: subWinPathsGo fuel rest

/-- The full-line Windows-path substitution applied to a whole string. -/
def subWinPaths (l : List Char) : List Char :=
  subWinPathsGo l.length l

/-- Embedding of `format_message` (build.py lines 157-173), applying in
order: the three literal summary replacements (each guarded in the source
by an `in` check that does not change the result of `str.replace`), the
case-insensitive `\berror\b` highlighting, and the full-line uppercase
Windows-path substitution. -/
def format_message (msg : String) : String :=
  let l := msg.data
  let l := replaceAll "Build succeeded.".data (C "green" ++ "Build succeeded." ++ C "endc").data l
  let l := replaceAll "Warning(s)".data (C "yellow" ++ "Warning(s)" ++ C "endc").data l
  let l := replaceAll "Error(s)".data (C "boldred" ++ "Error(s)" ++ C "endc").data l
  let l := subError l
  let l := subWinPaths l
  ⟨l⟩

/-- Structured result of the diagnostic regex in `process_output`: the four
named groups `full_path`, `line`, `col` and `message`.  The optional groups
hold the captured digit strings exactly as Python does (they are printed
back verbatim). -/
structure DiagnosticRecord where
  full_path : String
  line : Option String
  col : Option String
  message : String
deriving DecidableEq, Repr

/-- The `\s*` skip followed by the `.*` message group: `.` stops at a
newline (none ever occurs inside a line delivered by `readline`). -/
def msgOf (r : List Char) : String :=
  ⟨(r.dropWhile pySpace).takeWhile (fun c => c ≠ '\n')⟩

/-- Attempt of the diagnostic pattern of `process_output` (build.py lines
126-135) anchored at the head of the list:
`(?P<full_path>[A-Za-z]:\\[^:(]+)(?:\((?P<line>\d+),(?P<col>\d+)\))?:\s*(?P<message>.*)`.
Backtracking is deterministic here: shortening any greedy run leaves a
character that the following literal cannot match, so only the maximal runs
can succeed; the optional group is taken exactly when the character ending
the path body is `(` and the parenthesised `line,col` prefix followed by a
colon is present. -/
def matchAt (l : List Char) : Option DiagnosticRecord :=
  match l with
  | a :: ':' :: '\\' :: rest =>
      if a.isAlpha then
        let body := rest.takeWhile notPathEnd
        let after := rest.dropWhile notPathEnd
        if body.isEmpty then none
        else
          match after with
          | '(' :: r2 =>
              let d1 := r2.takeWhile pyDigit
              let r3 := r2.dropWhile pyDigit
              match d1, r3 with
              | _ :: _, ',' :: r4 =>
                  let d2 := r4.takeWhile pyDigit
                  let r5 := r4.dropWhile pyDigit
                  match d2, r5 with
                  | _ :: _, ')' :: ':' :: r6 =>
                      some { full_path := ⟨a :: ':' :: '\\' :: body⟩,
                             line := some ⟨d1⟩, col := some ⟨d2⟩,
                             message := msgOf r6 }
                  | _, _ => none
              | _, _ => none
          | ':' :: r2 =>
              some { full_path := ⟨a :: ':' :: '\\' :: body⟩,
                     line := none, col := none,
                     message := msgOf r2 }
          | _ => none
      else none
  | _ => none

/-- `re.search` of the diagnostic pattern: the leftmost start position at
which the pattern matches wins. -/
def searchDiag : List Char → Option DiagnosticRecord
  | [] => none
  | c :: t =>
      match matchAt (c :: t) with
      | some r => some r
      | none => searchDiag t

/-- Printed location of a matched diagnostic (build.py lines 145-150): path,
then `:line`, then `:col`, the column omitted when absent and both omitted
when the line is absent.  The regex can only deliver nonempty digit strings,
so Python's truthiness tests on the groups coincide with presence. -/
def wsl_parsed (wsl_path : String) (line col : Option String) : String :=
  match line, col with
  | some ln, some cl => wsl_path ++ ":" ++ ln ++ ":" ++ cl
  | some ln, none => wsl_path ++ ":" ++ ln
  | none, _ => wsl_path

/-- Per-line body of `process_output` (build.py lines 123-155), returning
the exact text written to standard output for one raw line `output` from
the child stream.  The line is right-stripped before matching; a matched
line prints `f"{wsl_parsed}: {msg}"` through `print` (which appends a
newline); an unmatched line prints `format_message(output)` — the raw
`output`, not the stripped `line` — with `end=''`.  The source guard
`len(m.groups()) == 4` always holds for this four-group pattern. -/
def processLine (output : String) : String :=
  let line := pyRstrip output
  match searchDiag line.data with
  | some r =>
      let msg := format_message r.message
      let wsl_path := wslResolved r.full_path
      wsl_parsed wsl_path r.line r.col ++ ": " ++ msg ++ "\n"
  | none => format_message output

/-- Embedding of the read loop of `process_output` (build.py lines 117-121)
over a finite trace of `(readline result, poll result)` pairs: the loop
breaks exactly when the read returned `''` and `poll()` returned a value
(`is not None`); otherwise the line is processed and the loop continues.
The returned list is the sequence of strings written to standard output. -/
def process_output : List (String × Option Int) → List String
  | [] => []
  | (output, poll) :: rest =>
      if output = "" ∧ poll ≠ none then []
      else processLine output :: process_output rest

/-- Embedding of the `sigint` handler (build.py lines 11-16): it writes the
acknowledgement text to standard output and calls `sys.exit(0)`.  The result
is the pair (text written, process exit status).  Both arguments (`_signum`,
`_stackframe`) are ignored by the source. -/
def sigint (_signum _stackframe : Nat) : String × Nat :=
  ("\nexit\n", 0)

/-- Outcomes of the collaborators `main` consults before and while choosing
an exit path (build.py lines 18-114): whether a project file was found,
whether a framework version was resolved, whether `--run` was given, the
result of `find_executable` in run mode, the compiler environment variable,
and the exit status the child build process eventually reports. -/
structure MainEnv where
  project_file : Option String
  framework_ver : Option String
  run : Bool
  exe_path : Option String
  cc : Option String
  child_status : Nat
deriving Repr

/-- Exit status of the whole program as a function of `main`'s branches
(build.py lines 18-114 and `sys.exit(main())` at line 285):
`return 1` when no project file (line 25), when no framework version
(line 31), or when no compiler command (line 93); in run mode,
`run_executable` calls `sys.exit(1)` when the executable is missing
(line 239) and otherwise `main` returns 0 (line 44); after the build
branch drains `process_output`, `main` returns 0 (line 114) — the child's
status (`p.returncode`) is never consulted. -/
def main_exit (e : MainEnv) : Nat :=
  match e.project_file with
  | none => 1
  | some _ =>
      match e.framework_ver with
      | none => 1
      | some _ =>
          if e.run then
            match e.exe_path with
            | none => 1
            | some _ => 0
          else
            match e.cc with
            | none => 1
            | some _ => 0

/-- Exit status of the program as supervised by the signal machinery set up
at build.py line 19: if a SIGINT arrives, the registered `sigint` handler
terminates the process with its own status; otherwise the status is the one
computed by `main`. -/
def supervisor_exit (e : MainEnv) (interrupt : Option (Nat × Nat)) : Nat :=
  match interrupt with
  | some (signum, frame) => (sigint signum frame).2
  | none => main_exit e

/-- Embedding of `find_executable` (build.py lines 263-269) over the result
of the directory glob: `next(exe, None)` yields the first glob hit if any,
and the hit is returned only when `is_file()` holds for it. -/
def find_executable (firstGlob : Option String) (is_file : String → Bool) : Option String :=
  match firstGlob with
  | some r => if is_file r then some r else none
  | none => none

/-- Embedding of `run_executable` (build.py lines 236-260) as the pair
(exit status of the program, lines written to standard output): a missing
executable prints the dedicated message and calls `sys.exit(1)` (lines
237-239); otherwise the child runs and its output lines are echoed
unmodified, after which control returns to `main`, which returns 0. -/
def run_executable (exe_path : Option String) (childLines : List String) :
    Nat × List String :=
  match exe_path with
  | none => (1, ["Executable not found."])
  | some _ => (0, childLines)

/-- Modelled from the spec: the Path Translator contract of section 4.1,
including the failure case absent from the code.  "split at the first colon
to obtain drive letter and remainder; lowercase the drive letter; replace
every backslash in the remainder with a forward slash; strip any leading
slash from the remainder (to avoid a double slash); produce
`/mnt/<drive>/<remainder>` ... Fails with an `InvalidPathError` when the
input does not contain a colon in the first two characters (drive-letter
form)."  The failure is `none`. -/
def translate_spec (s : String) : Option String :=
  match s.data with
  | ':' :: rest =>
      let remainder := (rest.map (fun c => if c = '\\' then '/' else c)).dropWhile (fun c => c = '/')
      some ⟨('/' :: 'm' :: 'n' :: 't' :: '/' :: ([] : List Char)) ++ '/' :: remainder⟩
  | a :: ':' :: rest =>
      let remainder := (rest.map (fun c => if c = '\\' then '/' else c)).dropWhile (fun c => c = '/')
      some ⟨('/' :: 'm' :: 'n' :: 't' :: '/' :: [a.toLower]) ++ '/' :: remainder⟩
  | _ => none

/-- A native path `<d>:\<segments joined by backslash>` assembled from a
drive letter and its segment lists. -/
def mkNative (d : Char) (segs : List (List Char)) : String :=
  ⟨d :: ':' :: '\\' :: joinSep '\\' segs⟩

/-- The mounted counterpart `/mnt/<lowercased d>/<segments joined by
forward slash>`. -/
def mkMounted (d : Char) (segs : List (List Char)) : String :=
  ⟨'/' :: 'm' :: 'n' :: 't' :: '/' :: d.toLower :: '/' :: joinSep '/' segs⟩

/-- A well-formed native path segment: nonempty, not the `.` segment, and
free of separators and colons. -/
def validSeg (s : List Char) : Prop :=
  s ≠ [] ∧ s ≠ ['.'] ∧ ∀ c ∈ s, c ≠ '\\' ∧ c ≠ '/' ∧ c ≠ ':'

instance (s : List Char) : Decidable (validSeg s) := by
  unfold validSeg
  infer_instance

/-! ## Helper lemmas -/

theorem toNat_ofNat_valid (n : Nat) (h : n.isValidChar) : (Char.ofNat n).toNat = n := by
  simp [Char.ofNat, dif_pos h, Char.ofNatAux, Char.toNat, UInt32.toNat, BitVec.toNat_ofNatLt]

theorem isAlpha_toNat (d : Char) (h : d.isAlpha = true) :
    (65 ≤ d.toNat ∧ d.toNat ≤ 90) ∨ (97 ≤ d.toNat ∧ d.toNat ≤ 122) := by
  simp [Char.isAlpha, Char.isUpper, Char.isLower, Char.le_def, Char.toNat] at h ⊢
  rcases h with ⟨h1, h2⟩ | ⟨h1, h2⟩
  · left
    exact ⟨h1, h2⟩
  · right
    exact ⟨h1, h2⟩

theorem toLower_toNat_range (d : Char) (h : d.isAlpha = true) :
    97 ≤ d.toLower.toNat ∧ d.toLower.toNat ≤ 122 := by
  rcases isAlpha_toNat d h with ⟨h1, h2⟩ | ⟨h1, h2⟩
  · have hv : (d.toNat + 32).isValidChar := by
      left
      omega
    simp only [Char.toLower, ge_iff_le,
      if_pos (⟨by omega, by omega⟩ : 65 ≤ d.toNat ∧ d.toNat ≤ 90)]
    rw [toNat_ofNat_valid _ hv]
    omega
  · simp only [Char.toLower, ge_iff_le, if_neg (by omega : ¬(65 ≤ d.toNat ∧ d.toNat ≤ 90))]
    omega

theorem ne_of_toNat_ne (a b : Char) (h : a.toNat ≠ b.toNat) : a ≠ b :=
  fun he => h (he ▸ rfl)

theorem splitBy_ne_nil (p : Char → Bool) (l : List Char) : splitBy p l ≠ [] := by
  cases l with
  | nil => simp [splitBy]
  | cons c t =>
      simp only [splitBy]
      split <;> simp

theorem splitBy_cons_sep (p : Char → Bool) (c : Char) (t : List Char) (h : p c = true) :
    splitBy p (c :: t) = [] :: splitBy p t := by
  simp [splitBy, h]

theorem splitBy_append_clean (p : Char → Bool) (s l : List Char)
    (hs : ∀ c ∈ s, p c = false) :
    splitBy p (s ++ l) = (s ++ (splitBy p l).headD []) :: (splitBy p l).tail := by
  induction s with
  | nil =>
      simp only [List.nil_append]
      rcases hl : splitBy p l with _ | ⟨h0, r⟩
      · exact absurd hl (splitBy_ne_nil p l)
      · simp
  | cons c s ih =>
      have hc : p c = false := hs c (by simp)
      have hrest : ∀ x ∈ s, p x = false := fun x hx => hs x (by simp [hx])
      have hstep : splitBy p ((c :: s) ++ l) =
          (c :: (splitBy p (s ++ l)).headD []) :: (splitBy p (s ++ l)).tail := by
        simp [splitBy, hc]
      rw [hstep, ih hrest]
      simp

theorem splitBy_joinSep (p : Char → Bool) (sepc : Char) (segs : List (List Char))
    (hsep : p sepc = true) (hne : segs ≠ [])
    (hsegs : ∀ s ∈ segs, ∀ c ∈ s, p c = false) :
    splitBy p (joinSep sepc segs) = segs := by
  induction segs with
  | nil => exact absurd rfl hne
  | cons x r ih =>
      cases r with
      | nil =>
          have hx : ∀ c ∈ x, p c = false := hsegs x (by simp)
          have := splitBy_append_clean p x [] hx
          simpa [joinSep, splitBy] using this
      | cons y r2 =>
          have hx : ∀ c ∈ x, p c = false := hsegs x (by simp)
          have hr : ∀ s ∈ y :: r2, ∀ c ∈ s, p c = false :=
            fun s hsm => hsegs s (by simp [hsm])
          have hraw : joinSep sepc (x :: y :: r2) = x ++ sepc :: joinSep sepc (y :: r2) := rfl
          rw [hraw, splitBy_append_clean p x _ hx, splitBy_cons_sep p sepc _ hsep,
            ih (by simp) hr]
          simp

theorem keepPart_true (s : List Char) (h1 : s ≠ []) (h2 : s ≠ ['.']) : keepPart s = true := by
  cases s with
  | nil => exact absurd rfl h1
  | cons c t => simp [keepPart, h2]

/-- Claim C4: for every valid NativePath of the form `<DriveLetter>:\\<segments...>`,
`windows_to_wsl` yields `/mnt/<lowercased-drive-letter>/<segments...>` with every
backslash replaced by a forward slash and no double slash after the drive
component. -/
theorem C4_translate_valid_native_path (d : Char) (segs : List (List Char)) (hd : d.isAlpha = true)
    (hne : segs ≠ []) (hs : ∀ s ∈ segs, validSeg s) :
    windows_to_wsl (mkNative d segs) = mkMounted d segs := by
  have hdl := toLower_toNat_range d hd
  have hdc : d ≠ ':' := by
    have h58 : (':' : Char).toNat = 58 := by decide
    rcases isAlpha_toNat d hd with ⟨h1, h2⟩ | ⟨h1, h2⟩ <;>
      (apply ne_of_toNat_ne; rw [h58]; omega)
  have hslash : d.toLower ≠ '/' := by
    apply ne_of_toNat_ne
    have : ('/' : Char).toNat = 47 := by decide
    omega
  have hdot : d.toLower ≠ '.' := by
    apply ne_of_toNat_ne
    have : ('.' : Char).toNat = 46 := by decide
    omega
  have hsegchars : ∀ s ∈ segs, ∀ c ∈ s, isSep c = false := by
    intro s hsm c hcm
    rcases (hs s hsm).2.2 c hcm with ⟨hb, hf, _⟩
    simp [isSep, hb, hf]
  have hsegq : ∀ s ∈ segs, ∀ c ∈ s, decide (c = '/') = false := by
    intro s hsm c hcm
    rcases (hs s hsm).2.2 c hcm with ⟨_, hf, _⟩
    simp [hf]
  have hdata : (mkNative d segs).data = d :: ':' :: '\\' :: joinSep '\\' segs := rfl
  have h1 : splitDrive (d :: ':' :: '\\' :: joinSep '\\' segs) =
      ([d, ':'], '\\' :: joinSep '\\' segs) := rfl
  have h2 : rstripColon [d, ':'] = [d] := by
    simp [rstripColon, List.dropWhile, hdc]
  have h3 : winParts ('\\' :: joinSep '\\' segs) = segs := by
    unfold winParts
    rw [splitBy_cons_sep isSep '\\' _ (by decide),
      splitBy_joinSep isSep '\\' segs (by decide) hne hsegchars]
    rw [List.filter_cons_of_neg (by simp [keepPart])]
    exact List.filter_eq_self.mpr (fun s hsm =>
      keepPart_true s (hs s hsm).1 (hs s hsm).2.1)
  have h4 : segs.isEmpty = false := by
    cases segs with
    | nil => exact absurd rfl hne
    | cons a b => rfl
  have hmain : windows_to_wsl (mkNative d segs) =
      pathStr (('/' :: 'm' :: 'n' :: 't' :: '/' :: [d.toLower]) ++ '/' :: joinSep '/' segs) := by
    simp only [windows_to_wsl, hdata, h1, h2, h3, h4, List.map]
    rfl
  rw [hmain]
  -- now compute pathStr
  obtain ⟨s0, r0, rfl⟩ : ∃ s0 r0, segs = s0 :: r0 := by
    cases segs with
    | nil => exact absurd rfl hne
    | cons a b => exact ⟨a, b, rfl⟩
  have e0 : (('/' :: 'm' :: 'n' :: 't' :: '/' :: [d.toLower]) ++
      '/' :: joinSep '/' (s0 :: r0)) =
      '/' :: 'm' :: 'n' :: 't' :: '/' :: d.toLower :: '/' :: joinSep '/' (s0 :: r0) := rfl
  have e1 : splitBy (fun c => decide (c = '/'))
      ('/' :: 'm' :: 'n' :: 't' :: '/' :: d.toLower :: '/' :: joinSep '/' (s0 :: r0)) =
      [] :: ['m', 'n', 't'] :: [d.toLower] :: s0 :: r0 := by
    rw [splitBy_cons_sep _ '/' _ (by decide)]
    rw [show ('m' :: 'n' :: 't' :: '/' :: d.toLower :: '/' :: joinSep '/' (s0 :: r0)) =
      ['m', 'n', 't'] ++ ('/' :: d.toLower :: '/' :: joinSep '/' (s0 :: r0)) from rfl]
    rw [splitBy_append_clean _ ['m', 'n', 't'] _ (by decide)]
    rw [splitBy_cons_sep _ '/' _ (by decide)]
    rw [show (d.toLower :: '/' :: joinSep '/' (s0 :: r0)) =
      [d.toLower] ++ ('/' :: joinSep '/' (s0 :: r0)) from rfl]
    rw [splitBy_append_clean _ [d.toLower] _
      (by intro c hc; simp at hc; subst hc; simp [hslash])]
    rw [splitBy_cons_sep _ '/' _ (by decide)]
    rw [splitBy_joinSep _ '/' _ (by decide) (by simp) hsegq]
    simp
  have e2 : posixParts
      ('/' :: 'm' :: 'n' :: 't' :: '/' :: d.toLower :: '/' :: joinSep '/' (s0 :: r0)) =
      ['m', 'n', 't'] :: [d.toLower] :: s0 :: r0 := by
    unfold posixParts
    rw [e1]
    rw [List.filter_cons_of_neg (by simp [keepPart])]
    rw [List.filter_cons_of_pos (by decide)]
    rw [List.filter_cons_of_pos (keepPart_true [d.toLower] (by simp) (by simp [hdot]))]
    rw [List.filter_eq_self.mpr (fun s hsm =>
      keepPart_true s (hs s hsm).1 (hs s hsm).2.1)]
  show pathStr _ = _
  rw [e0]
  unfold pathStr
  rw [e2]
  show String.mk ('/' :: (['m', 'n', 't'] ++ '/' :: ([d.toLower] ++ '/' :: joinSep '/' (s0 :: r0)))) = _
  rfl

/-- Witness for C4: the spec's two instances, `D:\\a\\b\\c` and `d:\\a\\b\\c`,
both of which translate to `/mnt/d/a/b/c`. -/
theorem C4_translate_valid_native_path_witness :
    windows_to_wsl "D:\\a\\b\\c" = "/mnt/d/a/b/c" ∧
    windows_to_wsl "d:\\a\\b\\c" = "/mnt/d/a/b/c" := by
  constructor
  · have h := C4_translate_valid_native_path 'D' [['a'], ['b'], ['c']]
      (by decide) (by decide) (by decide)
    have e1 : mkNative 'D' [['a'], ['b'], ['c']] = "D:\\a\\b\\c" := by decide
    have e2 : mkMounted 'D' [['a'], ['b'], ['c']] = "/mnt/d/a/b/c" := by decide
    rw [e1, e2] at h
    exact h
  · have h := C4_translate_valid_native_path 'd' [['a'], ['b'], ['c']]
      (by decide) (by decide) (by decide)
    have e1 : mkNative 'd' [['a'], ['b'], ['c']] = "d:\\a\\b\\c" := by decide
    have e2 : mkMounted 'd' [['a'], ['b'], ['c']] = "/mnt/d/a/b/c" := by decide
    rw [e1, e2] at h
    exact h

theorem matchAt_col_line (l : List Char) (r : DiagnosticRecord)
    (h : matchAt l = some r) : r.col.isSome → r.line.isSome := by
  intro hc
  unfold matchAt at h
  split at h
  · split at h
    · dsimp only at h
      split at h
      · simp at h
      · split at h
        · split at h
          · split at h
            · cases h
              simp
            · simp at h
          · simp at h
        · cases h
          simp at hc
        · simp at h
    · simp at h
  · simp at h

theorem searchDiag_col_line (l : List Char) (r : DiagnosticRecord)
    (h : searchDiag l = some r) : r.col.isSome → r.line.isSome := by
  induction l with
  | nil => simp [searchDiag] at h
  | cons c t ih =>
      unfold searchDiag at h
      rcases hm : matchAt (c :: t) with _ | r2
      · rw [hm] at h
        exact ih h
      · rw [hm] at h
        cases h
        exact matchAt_col_line (c :: t) r hm

/-- Claim C9: for every DiagnosticRecord produced by the matcher, a column
is present only if a line number is present, and the printed-form
construction never emits a column without a line. -/
theorem C9_column_only_with_line :
    (∀ (l : List Char) (r : DiagnosticRecord),
        searchDiag l = some r → r.col.isSome → r.line.isSome) ∧
    (∀ (w : String) (c : Option String), wsl_parsed w none c = w) := by
  constructor
  · exact searchDiag_col_line
  · intro w c
    rfl

/-- Witness for C9 at the concrete diagnostic `C:\a.cs(1,2): m`, whose
record carries both a line and a column. -/
theorem C9_column_only_with_line_witness :
    (({ full_path := "C:\\a.cs", line := some "1", col := some "2",
        message := "m" } : DiagnosticRecord)).line.isSome = true :=
  C9_column_only_with_line.1 "C:\\a.cs(1,2): m".data
    { full_path := "C:\\a.cs", line := some "1", col := some "2", message := "m" }
    (by decide) (by decide)

/-- Claim C1 (counterexample): with every pre-execution step successful and
the child build process exiting with status 2, the program's own exit code
is 0, not 2 — `main` never consults the child's status. -/
theorem C1_counterexample :
    main_exit { project_file := some "app.csproj", framework_ver := some "v4.7.2",
                run := false, exe_path := none, cc := some "msbuild.exe",
                child_status := 2 } = 0 ∧ (0 : Nat) ≠ 2 :=
  ⟨rfl, by decide⟩

/-- Claim C1 (amended): after the pipeline has drained the child's combined
output stream, the program exits 0 for every child exit status (the child's
status is never propagated); exit code 1 arises only from the fatal
pre-execution conditions. -/
theorem C1_exit_zero_after_drain (e : MainEnv) (hp : e.project_file.isSome)
    (hf : e.framework_ver.isSome) (hr : e.run = false) (hc : e.cc.isSome) :
    main_exit e = 0 := by
  rcases e with ⟨pf, fv, rn, xp, cc, cs⟩
  rcases pf with _ | p
  · simp at hp
  rcases fv with _ | f
  · simp at hf
  rcases cc with _ | c
  · simp at hc
  simp only at hr
  subst hr
  rfl

/-- Witness for the amended C1 at a concrete environment whose child exits
with status 7. -/
theorem C1_exit_zero_after_drain_witness :
    main_exit { project_file := some "app.csproj", framework_ver := some "net6.0",
                run := false, exe_path := none, cc := some "dotnet",
                child_status := 7 } = 0 :=
  C1_exit_zero_after_drain _ (by decide) (by decide) (by decide) (by decide)

/-- Claim C2 (counterexample): the stack-trace line
`   at Foo.Bar() in C:\proj\a.cs:line 42` is matched, but the resulting
record carries no line number at all (the claim expects line 42): the text
`line 42` lands in the message group instead. -/
theorem C2_counterexample :
    searchDiag (pyRstrip "   at Foo.Bar() in C:\\proj\\a.cs:line 42\n").data =
      some { full_path := "C:\\proj\\a.cs", line := none, col := none,
             message := "line 42" } ∧
    Option.map DiagnosticRecord.line
        (searchDiag (pyRstrip "   at Foo.Bar() in C:\\proj\\a.cs:line 42\n").data) ≠
      some (some "42") :=
  ⟨by decide, by decide⟩

/-- Claim C2 (amended): there is no stack-trace grammar; a line containing
`at ... in <path>:line <N>` is handled by the standard-diagnostic grammar,
which captures the path, no line, no column, and the message `line <N>`;
the printed form is `<mounted path>: line <N>`. -/
theorem C2_stack_trace_via_standard_grammar :
    processLine "   at Foo.Bar() in C:\\proj\\a.cs:line 42\n" =
      "/mnt/c/proj/a.cs: line 42\n" ∧
    searchDiag (pyRstrip "   at Foo.Bar() in C:\\proj\\a.cs:line 42\n").data =
      some { full_path := "C:\\proj\\a.cs", line := none, col := none,
             message := "line 42" } :=
  ⟨by decide, by decide⟩

/-- Claim C3 (counterexample): the `.` segment of `C:\proj\.\a.cs` is not
passed through: the printed line carries `/mnt/c/proj/a.cs`, not
`/mnt/c/proj/./a.cs`. -/
theorem C3_counterexample :
    processLine "C:\\proj\\.\\a.cs: msg\n" = "/mnt/c/proj/a.cs: msg\n" ∧
    processLine "C:\\proj\\.\\a.cs: msg\n" ≠ "/mnt/c/proj/./a.cs: msg\n" :=
  ⟨by decide, by decide⟩

/-- Claim C3 (amended): path rewriting canonicalizes dot segments rather
than passing them through — `.` segments are dropped by `PureWindowsPath`
parsing and `..` segments are collapsed by `Path.resolve()`, on matched
diagnostic paths and on paths substituted inside unmatched lines alike. -/
theorem C3_dot_segments_canonicalized :
    processLine "C:\\proj\\.\\a.cs: msg\n" = "/mnt/c/proj/a.cs: msg\n" ∧
    processLine "C:\\proj\\..\\a.cs: msg\n" = "/mnt/c/a.cs: msg\n" ∧
    format_message "see A:\\p\\..\\q.cs done" = "see /mnt/a/q.cs done" :=
  ⟨by decide, by decide, by decide⟩

/-- Claim C5 (counterexample): on the input `foo\bar`, which has no colon in
its first two characters, the code's translation does not fail — it returns
the path `/mnt/foo/bar` — while the spec's Path Translator contract demands
an `InvalidPathError` (modelled as `none` by `translate_spec`). -/
theorem C5_counterexample :
    windows_to_wsl "foo\\bar" = "/mnt/foo/bar" ∧
    translate_spec "foo\\bar" = none :=
  ⟨by decide, by decide⟩

/-- Claim C5 (amended): `windows_to_wsl` never fails (no `InvalidPathError`
exists anywhere in the program); for an input without a colon as its second
character the drive is empty and the result is `/mnt/<remainder>` after
`Path` normalization collapses the double slash. -/
theorem C5_no_invalid_path_error :
    windows_to_wsl "foo\\bar" = "/mnt/foo/bar" ∧
    windows_to_wsl "justafile.cs" = "/mnt/justafile.cs" ∧
    translate_spec "foo\\bar" = none ∧
    translate_spec "justafile.cs" = none :=
  ⟨by decide, by decide, by decide, by decide⟩

/-- Claim C6 (counterexample): a lowercase-drive native path on an unmatched
line is not translated by the formatter — the full-line pattern only
matches uppercase `[A-Z]` drives. -/
theorem C6_counterexample :
    format_message "see c:\\proj\\a.cs here" = "see c:\\proj\\a.cs here" ∧
    format_message "see c:\\proj\\a.cs here" ≠ "see /mnt/c/proj/a.cs here" ∧
    processLine "see c:\\proj\\a.cs here\n" = "see c:\\proj\\a.cs here\n" :=
  ⟨by decide, by decide, by decide⟩

/-- Claim C6 (amended): the formatter scans the entire line and replaces
every occurrence of an uppercase-drive native path (multiple distinct paths
included), but lowercase drive letters are not matched by the substitution
pattern and pass through unchanged. -/
theorem C6_uppercase_paths_translated :
    format_message "A:\\x B:\\y and c:\\z" = "/mnt/a/x /mnt/b/y and c:\\z" := by
  decide

/-- Claim C7: the read loop terminates exactly when the read yields the
empty string and `poll()` reports the child terminated; an empty read while
the child is still alive processes the line and continues. -/
theorem C7_read_loop_break (o : String) (pl : Option Int)
    (rest : List (String × Option Int)) :
    (process_output ((o, pl) :: rest) = [] ↔ (o = "" ∧ pl ≠ none)) ∧
    (o = "" → pl = none → process_output ((o, pl) :: rest) =
      processLine o :: process_output rest) := by
  have hdef : process_output ((o, pl) :: rest) =
      if o = "" ∧ pl ≠ none then [] else processLine o :: process_output rest := rfl
  rw [hdef]
  by_cases hb : o = "" ∧ pl ≠ none
  · rw [if_pos hb]
    exact ⟨⟨fun _ => hb, fun _ => rfl⟩, fun _ h2 => absurd h2 hb.2⟩
  · rw [if_neg hb]
    exact ⟨⟨fun h => absurd h (List.cons_ne_nil _ _), fun h => absurd h hb⟩,
      fun _ _ => rfl⟩

/-- Witness for C7: an empty read with the child alive continues the loop;
an empty read with the child terminated (status 0) stops it. -/
theorem C7_read_loop_break_witness :
    process_output [("", none)] = [processLine ""] ∧
    process_output [("", some 0)] = [] := by
  constructor
  · exact (C7_read_loop_break "" none []).2 rfl rfl
  · exact (C7_read_loop_break "" (some 0) []).1.mpr ⟨rfl, by simp⟩

/-- Claim C8 (counterexample): in run mode with no executable found, the
program prints the dedicated message and exits with status 1 — a fatal
exit, contradicting the claimed non-fatal failure. -/
theorem C8_counterexample :
    run_executable none [] = (1, ["Executable not found."]) ∧ (1 : Nat) ≠ 0 :=
  ⟨rfl, by decide⟩

/-- Claim C8 (amended): when no executable matching the project pattern is
found, `find_executable` yields nothing and `run_executable` reports the
dedicated message `Executable not found.` and terminates the program with
the fatal exit status 1 (`sys.exit(1)`). -/
theorem C8_missing_executable_fatal (childLines : List String)
    (is_file : String → Bool) :
    find_executable none is_file = none ∧
    run_executable (find_executable none is_file) childLines =
      (1, ["Executable not found."]) :=
  ⟨rfl, rfl⟩

/-- Claim C10: on receiving SIGINT the registered handler writes the
acknowledgement `"\nexit\n"` to standard output and terminates the program
with exit status 0 — independent of the environment (in particular of the
child's exit status) and never with status 1. -/
theorem C10_sigint_exit (signum frame : Nat) (e : MainEnv) :
    sigint signum frame = ("\nexit\n", 0) ∧
    supervisor_exit e (some (signum, frame)) = 0 ∧
    supervisor_exit e (some (signum, frame)) ≠ 1 :=
  ⟨rfl, rfl, by simp [supervisor_exit, sigint]⟩

end WslProxyBuild
